import Mathlib

/-!
Verification of the stream-command translation layer (`redis-streams-rs`):
the argument encoders (`StreamClaimOptions`, `StreamReadOptions`, `StreamMaxlen`),
the reply decoders (`StreamReadReply`, `StreamPendingReply`,
`StreamPendingCountReply`, the info replies and `StreamId.from_bulk_value`),
and the `xread_options` command-surface dispatch.

Wire values are the generic reply representation of the wrapped client
(nil / integer / bulk data / sequence / status / ok).  Byte strings are
modelled as `String`; argument token sequences as `List String`; the
`HashMap` reply containers as insertion-ordered association lists with
overwrite-on-duplicate-key (the claims only exercise them through lookups
and single-entry maps, where iteration order is determined).
-/

set_option maxHeartbeats 1000000

namespace RedisStreams

/-- The generic wire value of the wrapped client library
(`redis::Value`): `Nil`, `Int`, bulk `Data` bytes, a `Bulk` sequence of
values, a `Status` line, or `Okay`. -/
inductive Value where
  | Nil : Value
  | Int (i : Int) : Value
  | Data (s : String) : Value
  | Bulk (items : List Value) : Value
  | Status (s : String) : Value
  | Okay : Value

/-- Decode-error taxonomy: generic shape/type violations raised by the
field-level deserialization capability, versus the one deliberate
domain-level check (the `IllegalState` errors built with
`Error::new(ErrorKind::Other, ..)` in `StreamPendingReply`). -/
inductive RErr where
  | typeError (msg : String) : RErr
  | illegalState (msg : String) : RErr
deriving DecidableEq

/-- Result of a fallible decode step (`RedisResult`). -/
abbrev RResult (α : Type) := Except RErr α

/-- Outcome of running a whole decoder, with the out-of-bounds indexing
panics of the Rust code (`consumer[0]`, `row[0]`, ..) made explicit. -/
inductive DResult (α : Type) where
  | ok (a : α) : DResult α
  | err (e : RErr) : DResult α
  | panic : DResult α
deriving DecidableEq

/-- Modelled from the spec (§6): the external capability deserializing a
wire value into a `String` (bulk data as UTF-8, a status line, or `OK`). -/
def fromValueString : Value → RResult String
  | .Data s => .ok s
  | .Status s => .ok s
  | .Okay => .ok "OK"
  | _ => .error (.typeError "Response type not string compatible")

/-- Accumulate decimal digits; any non-digit character fails. -/
def parseDigits : List Char → Nat → Option Nat
  | [], acc => some acc
  | c :: rest, acc =>
      if c.isDigit then parseDigits rest (acc * 10 + (c.toNat - 48)) else none

/-- `str::parse::<usize>` on decimal text: an optional leading `+` sign
followed by at least one digit (unbounded here; the claims never
exercise overflow). -/
def rustParseUsize (s : String) : Option Nat :=
  match s.data with
  | [] => none
  | '+' :: rest =>
      match rest with
      | [] => none
      | _ => parseDigits rest 0
  | l => parseDigits l 0

/-- Modelled from the spec (§6): the external capability deserializing a
wire value into an unsigned integer (`Int` taken mod 2^64 as the `as usize`
cast does on 64-bit, or numeric text). -/
def fromValueUsize : Value → RResult Nat
  | .Int i => .ok (i.emod (2 ^ 64)).toNat
  | .Data s =>
      match rustParseUsize s with
      | some n => .ok n
      | none => .error (.typeError "Could not convert from string")
  | .Status s =>
      match rustParseUsize s with
      | some n => .ok n
      | none => .error (.typeError "Could not convert from string")
  | _ => .error (.typeError "Response type not integer compatible")

/-- Modelled from the spec (§6): `Option<T>` deserialization — `Nil`
becomes `none`, anything else is deserialized by the inner rule. -/
def fromValueOpt {α : Type} (f : Value → RResult α) : Value → RResult (Option α)
  | .Nil => .ok none
  | v => (f v).map some

/-- Modelled from the spec (§6): the identity deserialization keeping the
raw wire value (`FromRedisValue` for `Value`). -/
def fromValueValue : Value → RResult Value := fun v => .ok v

/-- Modelled from the spec (§6): sequence deserialization — a `Bulk` is
deserialized element-wise, `Nil` is the empty sequence. -/
def fromValueVec {α : Type} (f : Value → RResult α) : Value → RResult (List α)
  | .Bulk items => items.mapM f
  | .Nil => .ok []
  | _ => .error (.typeError "Response type not vec compatible")

/-- Pair up consecutive elements of a flat key/value sequence; a trailing
odd key is dropped, as the client's map-decoding loop does. -/
def pairUp : List Value → List (Value × Value)
  | k :: v :: rest => (k, v) :: pairUp rest
  | _ => []

/-- Insert into the association-list model of `HashMap`: overwrite the
existing binding of the key, else append. -/
def hmInsert {α : Type} (m : List (String × α)) (k : String) (a : α) :
    List (String × α) :=
  if (m.lookup k).isSome then
    m.map (fun p => if p.1 = k then (k, a) else p)
  else m ++ [(k, a)]

/-- Modelled from the spec (§6): map deserialization — a `Bulk` of
alternating keys and values, keys as strings, values by the inner rule. -/
def fromValueMap {α : Type} (f : Value → RResult α) : Value → RResult (List (String × α))
  | .Bulk items =>
      (pairUp items).foldlM
        (fun acc p => do
          let k ← fromValueString p.1
          let a ← f p.2
          pure (hmInsert acc k a))
        []
  | _ => .error (.typeError "Response type not hashmap compatible")

/-- Modelled from the spec (§6): 4-tuple deserialization — a `Bulk` of
exactly four elements, each deserialized by its own rule. -/
def fromValueTuple4 {α β γ δ : Type} (f1 : Value → RResult α) (f2 : Value → RResult β)
    (f3 : Value → RResult γ) (f4 : Value → RResult δ) :
    Value → RResult (α × β × γ × δ)
  | .Bulk items =>
      match items with
      | [a, b, c, d] => do
          let x ← f1 a
          let y ← f2 b
          let z ← f3 c
          let w ← f4 d
          pure (x, y, z, w)
      | _ => .error (.typeError "Bulk response of wrong dimension")
  | _ => .error (.typeError "Response type not tuple compatible")

/-! ## Argument encoder -/

/-- `RedisWrite::write_arg`: append one argument token to the output. -/
def write_arg (out : List String) (a : String) : List String := out ++ [a]

/-- `StreamMaxlen`: trim threshold, exact (`=`) or approximate (`~`). -/
inductive StreamMaxlen where
  | Equals (v : Nat) : StreamMaxlen
  | Aprrox (v : Nat) : StreamMaxlen
deriving DecidableEq

/-- `StreamMaxlen::write_redis_args`. -/
def StreamMaxlen.write_redis_args (m : StreamMaxlen) (out : List String) : List String :=
  let (ch, val) :=
    match m with
    | .Equals v => ("=", v)
    | .Aprrox v => ("~", v)
  write_arg (write_arg (write_arg out "MAXLEN") ch) (toString val)

/-- Builder options for the `xclaim_options` command. -/
structure StreamClaimOptions where
  idle : Option Nat := none
  time : Option Nat := none
  retry : Option Nat := none
  force : Bool := false
  justid : Bool := false
deriving DecidableEq, Inhabited

/-- `StreamClaimOptions::idle` (named `setIdle`: the field projection
already takes the source name). -/
def StreamClaimOptions.setIdle (o : StreamClaimOptions) (ms : Nat) : StreamClaimOptions :=
  { o with idle := some ms }

/-- `StreamClaimOptions::time`. -/
def StreamClaimOptions.setTime (o : StreamClaimOptions) (ms_time : Nat) : StreamClaimOptions :=
  { o with time := some ms_time }

/-- `StreamClaimOptions::retry`. -/
def StreamClaimOptions.setRetry (o : StreamClaimOptions) (count : Nat) : StreamClaimOptions :=
  { o with retry := some count }

/-- `StreamClaimOptions::with_force`. -/
def StreamClaimOptions.with_force (o : StreamClaimOptions) : StreamClaimOptions :=
  { o with force := true }

/-- `StreamClaimOptions::with_justid`. -/
def StreamClaimOptions.with_justid (o : StreamClaimOptions) : StreamClaimOptions :=
  { o with justid := true }

/-- `StreamClaimOptions::write_redis_args`: conditional keyword emission
into the output buffer, in source order. -/
def StreamClaimOptions.write_redis_args (o : StreamClaimOptions) (out : List String) :
    List String :=
  let out :=
    match o.idle with
    | some ms => write_arg (write_arg out "IDLE") (toString ms)
    | none => out
  let out :=
    match o.time with
    | some ms_time => write_arg (write_arg out "TIME") (toString ms_time)
    | none => out
  let out :=
    match o.retry with
    | some count => write_arg (write_arg out "RETRYCOUNT") (toString count)
    | none => out
  let out := if o.force then write_arg out "FORCE" else out
  if o.justid then write_arg out "JUSTID" else out

/-- `ToRedisArgs::to_redis_args` for claim options: the tokens written
into an empty buffer. -/
def StreamClaimOptions.to_redis_args (o : StreamClaimOptions) : List String :=
  o.write_redis_args []

/-- Builder options for the `xread_options` command.  The group pair
holds the group-name and consumer-name argument tokens, already expanded
by the generic serialization capability. -/
structure StreamReadOptions where
  block : Option Nat := none
  count : Option Nat := none
  noack : Option Bool := none
  group : Option (List String × List String) := none
deriving DecidableEq, Inhabited

/-- `StreamReadOptions::read_only`: true exactly when no group is set. -/
def StreamReadOptions.read_only (o : StreamReadOptions) : Bool :=
  o.group.isNone

/-- `StreamReadOptions::noack` (named `setNoack`: the field projection
already takes the source name). -/
def StreamReadOptions.setNoack (o : StreamReadOptions) : StreamReadOptions :=
  { o with noack := some true }

/-- `StreamReadOptions::block`. -/
def StreamReadOptions.setBlock (o : StreamReadOptions) (ms : Nat) : StreamReadOptions :=
  { o with block := some ms }

/-- `StreamReadOptions::count`. -/
def StreamReadOptions.setCount (o : StreamReadOptions) (n : Nat) : StreamReadOptions :=
  { o with count := some n }

/-- `StreamReadOptions::group`, taking the serialized name tokens. -/
def StreamReadOptions.setGroup (o : StreamReadOptions)
    (group_name consumer_name : List String) : StreamReadOptions :=
  { o with group := some (group_name, consumer_name) }

/-- `StreamReadOptions::write_redis_args`: `BLOCK`/`COUNT` if present,
then — only under a group — conditional `NOACK` followed by `GROUP` and
the name tokens. -/
def StreamReadOptions.write_redis_args (o : StreamReadOptions) (out : List String) :
    List String :=
  let out :=
    match o.block with
    | some ms => write_arg (write_arg out "BLOCK") (toString ms)
    | none => out
  let out :=
    match o.count with
    | some n => write_arg (write_arg out "COUNT") (toString n)
    | none => out
  match o.group with
  | some group =>
      let out :=
        match o.noack with
        | some true => write_arg out "NOACK"
        | _ => out
      let out := write_arg out "GROUP"
      let out := group.1.foldl write_arg out
      group.2.foldl write_arg out
  | none => out

/-- `ToRedisArgs::to_redis_args` for read options. -/
def StreamReadOptions.to_redis_args (o : StreamReadOptions) : List String :=
  o.write_redis_args []

/-- `StreamCommands::xread_options`: keyword chosen by `read_only`, then
option tokens, `STREAMS`, keys, ids. -/
def xread_options (keys ids : List String) (options : StreamReadOptions) :
    String × List String :=
  ((if options.read_only then "XREAD" else "XREADGROUP"),
    options.to_redis_args ++ ["STREAMS"] ++ keys ++ ids)

/-! ## Reply data model -/

/-- A stream entry: its id and its field/value map. -/
structure StreamId where
  id : String := ""
  map : List (String × Value) := []

/-- A stream key with its decoded entries. -/
structure StreamKey where
  key : String := ""
  ids : List StreamId := []

/-- Reply of `xread` / `xread_options`. -/
structure StreamReadReply where
  keys : List StreamKey := []

/-- A consumer row of the pending summary / consumer info replies. -/
structure StreamInfoConsumer where
  name : String := ""
  pending : Nat := 0
  idle : Nat := 0
deriving DecidableEq

/-- Populated payload of a pending summary. -/
structure StreamPendingData where
  count : Nat := 0
  start_id : String := ""
  end_id : String := ""
  consumers : List StreamInfoConsumer := []
deriving DecidableEq

/-- Reply of `xpending`: empty, or summary data. -/
inductive StreamPendingReply where
  | Empty : StreamPendingReply
  | Data (x : StreamPendingData) : StreamPendingReply
deriving DecidableEq

/-- `StreamPendingReply::count`. -/
def StreamPendingReply.count : StreamPendingReply → Nat
  | .Empty => 0
  | .Data x => x.count

/-- One row of the detailed pending reply. -/
structure StreamPendingId where
  id : String := ""
  consumer : String := ""
  last_delivered_ms : Nat := 0
  times_delivered : Nat := 0
deriving DecidableEq

/-- Reply of `xpending_count` / `xpending_consumer_count`. -/
structure StreamPendingCountReply where
  ids : List StreamPendingId := []
deriving DecidableEq

/-- Reply of `xinfo_stream`. -/
structure StreamInfoStreamReply where
  last_generated_id : String := ""
  radix_tree_keys : Nat := 0
  groups : Nat := 0
  length : Nat := 0
  first_entry : StreamId := {}
  last_entry : StreamId := {}

/-- Reply of `xinfo_consumers`. -/
structure StreamInfoConsumersReply where
  consumers : List StreamInfoConsumer := []
deriving DecidableEq

/-- A group row of `xinfo_groups`. -/
structure StreamInfoGroup where
  name : String := ""
  consumers : Nat := 0
  pending : Nat := 0
  last_delivered_id : String := ""
deriving DecidableEq

/-- Reply of `xinfo_groups`. -/
structure StreamInfoGroupsReply where
  groups : List StreamInfoGroup := []
deriving DecidableEq

/-! ## Reply decoder -/

/-- `StreamId::from_bulk_value`: element 0 is the id, element 1 the field
map; missing elements keep the defaults; non-sequence input yields the
default stream id. -/
def StreamId.from_bulk_value (v : Value) : RResult StreamId :=
  match v with
  | .Bulk values => do
      let s0 : StreamId := {}
      let s1 ←
        match values.get? 0 with
        | some w => do
            let i ← fromValueString w
            pure { s0 with id := i }
        | none => pure s0
      match values.get? 1 with
      | some w => do
          let m ← fromValueMap fromValueValue w
          pure { s1 with map := m }
      | none => pure s1
  | _ => .ok {}

/-- Field-level deserialization target of `StreamReadReply`:
`Vec<HashMap<String, Vec<HashMap<String, HashMap<String, Value>>>>>`. -/
def readReplyParts :
    Value → RResult (List (List (String × List (List (String × List (String × Value)))))) :=
  fromValueVec (fromValueMap (fromValueVec (fromValueMap (fromValueMap fromValueValue))))

/-- The row loop of `StreamReadReply::from_redis_value`: each outer map
entry becomes a `StreamKey`; inside, each single-entry map row becomes a
`StreamId` (with multiple entries the last iterated pair wins). -/
def processReadRows
    (rows : List (List (String × List (List (String × List (String × Value)))))) :
    StreamReadReply :=
  { keys :=
      rows.flatMap fun row =>
        row.map fun p =>
          { key := p.1
            ids := p.2.map fun id_row =>
              id_row.foldl (fun i q => { i with id := q.1, map := q.2 }) {} } }

/-- `StreamReadReply::from_redis_value`. -/
def StreamReadReply.from_redis_value (v : Value) : RResult StreamReadReply :=
  (readReplyParts v).map processReadRows

/-- Field-level deserialization target of `StreamPendingReply`:
`(usize, Option<String>, Option<String>, Vec<Vec<String>>)`. -/
def readPendingParts :
    Value → RResult (Nat × Option String × Option String × List (List String)) :=
  fromValueTuple4 fromValueUsize (fromValueOpt fromValueString)
    (fromValueOpt fromValueString) (fromValueVec (fromValueVec fromValueString))

/-- The per-consumer loop of `StreamPendingReply::from_redis_value`:
`consumer[0]` is the name, `consumer[1]` is parsed leniently as the count
(parse failure keeps 0); a row shorter than two elements is an
out-of-bounds panic. -/
def parseConsumersLoop : List (List String) → DResult (List StreamInfoConsumer)
  | [] => .ok []
  | r :: rest =>
      match r with
      | name :: cnt :: _ =>
          let info : StreamInfoConsumer :=
            { name := name
              pending :=
                match rustParseUsize cnt with
                | some v => v
                | none => 0 }
          match parseConsumersLoop rest with
          | .ok cs => .ok (info :: cs)
          | .err e => .err e
          | .panic => .panic
      | _ => .panic

/-- `StreamPendingReply::from_redis_value`: zero count is `Empty`;
nonzero count demands both boundary ids (else the `IllegalState` domain
error) and then collects the per-consumer rows. -/
def StreamPendingReply.from_redis_value (v : Value) : DResult StreamPendingReply :=
  match readPendingParts v with
  | .error e => .err e
  | .ok parts =>
      let count := parts.1
      if count = 0 then .ok .Empty
      else
        match parts.2.1 with
        | none => .err (.illegalState "IllegalState: Non-zero pending expects start id")
        | some start_id =>
            match parts.2.2.1 with
            | none => .err (.illegalState "IllegalState: Non-zero pending expects end id")
            | some end_id =>
                match parseConsumersLoop parts.2.2.2 with
                | .ok consumers =>
                    .ok (.Data { count := count, start_id := start_id,
                                 end_id := end_id, consumers := consumers })
                | .err e => .err e
                | .panic => .panic

/-- Field-level deserialization target of `StreamPendingCountReply`:
`Vec<Vec<(String, String, usize, usize)>>`. -/
def readPendingCountParts :
    Value → RResult (List (List (String × String × Nat × Nat))) :=
  fromValueVec (fromValueVec
    (fromValueTuple4 fromValueString fromValueString fromValueUsize fromValueUsize))

/-- The row loop of `StreamPendingCountReply::from_redis_value`: each row
contributes `row[0]`'s four fields; an empty row is an out-of-bounds
panic. -/
def pendingCountLoop : List (List (String × String × Nat × Nat)) →
    DResult (List StreamPendingId)
  | [] => .ok []
  | row :: rest =>
      match row with
      | t :: _ =>
          let p : StreamPendingId :=
            { id := t.1, consumer := t.2.1
              last_delivered_ms := t.2.2.1, times_delivered := t.2.2.2 }
          match pendingCountLoop rest with
          | .ok ps => .ok (p :: ps)
          | .err e => .err e
          | .panic => .panic
      | [] => .panic

/-- `StreamPendingCountReply::from_redis_value`. -/
def StreamPendingCountReply.from_redis_value (v : Value) : DResult StreamPendingCountReply :=
  match readPendingCountParts v with
  | .error e => .err e
  | .ok parts =>
      match pendingCountLoop parts with
      | .ok ids => .ok { ids := ids }
      | .err e => .err e
      | .panic => .panic

/-- One `if let Some(v) = map.get(key)` probe of the info decoders: if
the key is present its value is deserialized and applied to the reply
under construction, else the reply is unchanged. -/
def probeKey {α β : Type} (m : List (String × Value)) (key : String)
    (conv : Value → RResult α) (upd : β → α → β) (r : β) : RResult β :=
  match m.lookup key with
  | some v => (conv v).map (upd r)
  | none => .ok r

/-- The key-probing body of `StreamInfoStreamReply::from_redis_value`,
over the already-deserialized map: each known key is applied if present,
in source order. -/
def StreamInfoStreamReply.fromMap (m : List (String × Value)) :
    RResult StreamInfoStreamReply := do
  let reply : StreamInfoStreamReply := {}
  let reply ← probeKey m "last-generated-id" fromValueString
    (fun r x => { r with last_generated_id := x }) reply
  let reply ← probeKey m "radix-tree-nodes" fromValueUsize
    (fun r x => { r with radix_tree_keys := x }) reply
  let reply ← probeKey m "groups" fromValueUsize
    (fun r x => { r with groups := x }) reply
  let reply ← probeKey m "length" fromValueUsize
    (fun r x => { r with length := x }) reply
  let reply ← probeKey m "first-entry" StreamId.from_bulk_value
    (fun r x => { r with first_entry := x }) reply
  probeKey m "last-entry" StreamId.from_bulk_value
    (fun r x => { r with last_entry := x }) reply

/-- `StreamInfoStreamReply::from_redis_value`. -/
def StreamInfoStreamReply.from_redis_value (v : Value) : RResult StreamInfoStreamReply := do
  let m ← fromValueMap fromValueValue v
  StreamInfoStreamReply.fromMap m

/-- The key-probing body for one consumer map of
`StreamInfoConsumersReply::from_redis_value`. -/
def StreamInfoConsumer.fromMap (m : List (String × Value)) : RResult StreamInfoConsumer := do
  let c : StreamInfoConsumer := {}
  let c ← probeKey m "name" fromValueString (fun r x => { r with name := x }) c
  let c ← probeKey m "pending" fromValueUsize (fun r x => { r with pending := x }) c
  probeKey m "idle" fromValueUsize (fun r x => { r with idle := x }) c

/-- `StreamInfoConsumersReply::from_redis_value`. -/
def StreamInfoConsumersReply.from_redis_value (v : Value) :
    RResult StreamInfoConsumersReply := do
  let consumers ← fromValueVec (fromValueMap fromValueValue) v
  let cs ← consumers.mapM StreamInfoConsumer.fromMap
  pure { consumers := cs }

/-- The key-probing body for one group map of
`StreamInfoGroupsReply::from_redis_value`, in source order
(name, pending, consumers, last-delivered-id). -/
def StreamInfoGroup.fromMap (m : List (String × Value)) : RResult StreamInfoGroup := do
  let g : StreamInfoGroup := {}
  let g ← probeKey m "name" fromValueString (fun r x => { r with name := x }) g
  let g ← probeKey m "pending" fromValueUsize (fun r x => { r with pending := x }) g
  let g ← probeKey m "consumers" fromValueUsize (fun r x => { r with consumers := x }) g
  probeKey m "last-delivered-id" fromValueString
    (fun r x => { r with last_delivered_id := x }) g

/-- `StreamInfoGroupsReply::from_redis_value`. -/
def StreamInfoGroupsReply.from_redis_value (v : Value) : RResult StreamInfoGroupsReply := do
  let groups ← fromValueVec (fromValueMap fromValueValue) v
  let gs ← groups.mapM StreamInfoGroup.fromMap
  pure { groups := gs }

/-! ## Specification-side token shapes -/

/-- Tokens of one optional keyword/value argument: `[KW, n]` when the
value is present, nothing when absent. -/
def optTokens (kw : String) : Option Nat → List String
  | some n => [kw, toString n]
  | none => []

/-- Tokens of one flag argument: `[KW]` when set, nothing otherwise. -/
def flagTokens (kw : String) : Bool → List String
  | true => [kw]
  | false => []

/-- Tokens of the group tail of read options: nothing without a group;
with a group, conditional `NOACK`, then `GROUP` and the name tokens. -/
def groupTokens (noack : Option Bool) :
    Option (List String × List String) → List String
  | none => []
  | some g => (if noack = some true then ["NOACK"] else []) ++ ["GROUP"] ++ g.1 ++ g.2

/-- One builder step of `StreamClaimOptions`, for stating that the
emission order is independent of builder call order. -/
inductive ClaimSetter where
  | idle (ms : Nat) : ClaimSetter
  | time (ms_time : Nat) : ClaimSetter
  | retry (count : Nat) : ClaimSetter
  | force : ClaimSetter
  | justid : ClaimSetter

/-- Apply one claim-builder step. -/
def ClaimSetter.apply (o : StreamClaimOptions) : ClaimSetter → StreamClaimOptions
  | .idle ms => o.setIdle ms
  | .time ms_time => o.setTime ms_time
  | .retry count => o.setRetry count
  | .force => o.with_force
  | .justid => o.with_justid

/-- Which field a claim-builder step targets. -/
def ClaimSetter.fieldIdx : ClaimSetter → Nat
  | .idle _ => 0
  | .time _ => 1
  | .retry _ => 2
  | .force => 3
  | .justid => 4

/-- One builder step of `StreamReadOptions`. -/
inductive ReadSetter where
  | block (ms : Nat) : ReadSetter
  | count (n : Nat) : ReadSetter
  | noack : ReadSetter
  | group (gn cn : List String) : ReadSetter

/-- Apply one read-builder step. -/
def ReadSetter.apply (o : StreamReadOptions) : ReadSetter → StreamReadOptions
  | .block ms => o.setBlock ms
  | .count n => o.setCount n
  | .noack => o.setNoack
  | .group gn cn => o.setGroup gn cn

/-- Which field a read-builder step targets. -/
def ReadSetter.fieldIdx : ReadSetter → Nat
  | .block _ => 0
  | .count _ => 1
  | .noack => 2
  | .group _ _ => 3

/-! ## Encoder lemmas -/

theorem foldl_write_arg (l : List String) (out : List String) :
    l.foldl write_arg out = out ++ l := by
  induction l generalizing out with
  | nil => simp
  | cons a t ih => simp [write_arg, ih, List.append_assoc]

theorem claimOptions_write_args_eq (o : StreamClaimOptions) (out : List String) :
    o.write_redis_args out =
      out ++ optTokens "IDLE" o.idle ++ optTokens "TIME" o.time ++
        optTokens "RETRYCOUNT" o.retry ++ flagTokens "FORCE" o.force ++
        flagTokens "JUSTID" o.justid := by
  obtain ⟨i, t, r, f, j⟩ := o
  cases i <;> cases t <;> cases r <;> cases f <;> cases j <;>
    simp [StreamClaimOptions.write_redis_args, write_arg, optTokens, flagTokens]

theorem readOptions_write_args_eq (o : StreamReadOptions) (out : List String) :
    o.write_redis_args out =
      out ++ optTokens "BLOCK" o.block ++ optTokens "COUNT" o.count ++
        groupTokens o.noack o.group := by
  obtain ⟨b, c, n, g⟩ := o
  cases b <;> cases c <;> cases g <;> rcases n with - | (- | -) <;>
    simp [StreamReadOptions.write_redis_args, write_arg, optTokens, groupTokens,
      foldl_write_arg, List.append_assoc]

/-! ## Claim theorems: encoding -/

/-- C3.  `StreamClaimOptions` encoding emits exactly the tokens of the
set options, in the fixed order `IDLE`, `TIME`, `RETRYCOUNT`, `FORCE`,
`JUSTID`, absent options contributing zero tokens; and the builder value
with idle=10, retry=2 and force encodes to exactly
`IDLE 10 RETRYCOUNT 2 FORCE`. -/
theorem claimOptions_encode_spec :
    (∀ o : StreamClaimOptions,
        o.to_redis_args =
          optTokens "IDLE" o.idle ++ optTokens "TIME" o.time ++
            optTokens "RETRYCOUNT" o.retry ++ flagTokens "FORCE" o.force ++
            flagTokens "JUSTID" o.justid) ∧
      ((({} : StreamClaimOptions).setIdle 10 |>.setRetry 2 |>.with_force).to_redis_args =
        ["IDLE", "10", "RETRYCOUNT", "2", "FORCE"]) := by
  constructor
  · intro o
    simpa using claimOptions_write_args_eq o []
  · decide

/-- C2.  `StreamReadOptions` encoding: `BLOCK` and `COUNT` tokens appear
exactly when those fields are set, in that order; without a group the
encoding is just those two segments whatever the noack flag holds; with a
group, the conditional `NOACK` token is immediately followed by `GROUP`,
the group-name tokens and the consumer-name tokens. -/
theorem readOptions_encode_spec :
    (∀ o : StreamReadOptions,
        o.to_redis_args =
          optTokens "BLOCK" o.block ++ optTokens "COUNT" o.count ++
            groupTokens o.noack o.group) ∧
      (∀ (b c : Option Nat) (n : Option Bool),
        ({ block := b, count := c, noack := n, group := none } :
            StreamReadOptions).to_redis_args =
          optTokens "BLOCK" b ++ optTokens "COUNT" c) ∧
      (∀ (o : StreamReadOptions) (gn cn : List String),
        ({ o with group := some (gn, cn) }).to_redis_args =
          optTokens "BLOCK" o.block ++ optTokens "COUNT" o.count ++
            ((if o.noack = some true then ["NOACK"] else []) ++ ["GROUP"] ++ gn ++ cn)) := by
  refine ⟨fun o => by simpa using readOptions_write_args_eq o [], ?_, ?_⟩
  · intro b c n
    simpa [groupTokens] using
      readOptions_write_args_eq { block := b, count := c, noack := n, group := none } []
  · intro o gn cn
    simpa [groupTokens] using
      readOptions_write_args_eq { o with group := some (gn, cn) } []

/-- C8.  `xread_options` selects its keyword by group presence alone:
`XREAD` exactly when no group is set (equivalently when `read_only` is
true), `XREADGROUP` exactly when a group is set, and the remaining
argument list is the same expression — option tokens, `STREAMS`, keys,
ids — in both cases. -/
theorem xread_options_keyword_spec :
    ∀ (keys ids : List String) (o : StreamReadOptions),
      (o.read_only = true ↔ o.group = none) ∧
        ((xread_options keys ids o).1 = "XREAD" ↔ o.group = none) ∧
        ((xread_options keys ids o).1 = "XREADGROUP" ↔ o.group ≠ none) ∧
        (xread_options keys ids o).2 = o.to_redis_args ++ ["STREAMS"] ++ keys ++ ids := by
  intro keys ids o
  have hro : o.read_only = true ↔ o.group = none := by
    cases h : o.group <;> simp [StreamReadOptions.read_only, h]
  refine ⟨hro, ?_, ?_, rfl⟩
  · cases h : o.group <;>
      simp [xread_options, StreamReadOptions.read_only, h]
  · cases h : o.group <;>
      simp [xread_options, StreamReadOptions.read_only, h]

/-- C9.  Builder order is irrelevant to the encoding: two builder steps
of `StreamClaimOptions` (resp. `StreamReadOptions`) that target different
fields produce, applied in either order, values with the same encoded
token sequence. -/
theorem builder_order_irrelevant :
    (∀ (o : StreamClaimOptions) (s1 s2 : ClaimSetter),
        s1.fieldIdx ≠ s2.fieldIdx →
          (ClaimSetter.apply (ClaimSetter.apply o s1) s2).to_redis_args =
            (ClaimSetter.apply (ClaimSetter.apply o s2) s1).to_redis_args) ∧
      (∀ (o : StreamReadOptions) (s1 s2 : ReadSetter),
        s1.fieldIdx ≠ s2.fieldIdx →
          (ReadSetter.apply (ReadSetter.apply o s1) s2).to_redis_args =
            (ReadSetter.apply (ReadSetter.apply o s2) s1).to_redis_args) := by
  constructor
  · intro o s1 s2 h
    cases s1 <;> cases s2 <;>
      simp_all [ClaimSetter.fieldIdx, ClaimSetter.apply, StreamClaimOptions.setIdle,
        StreamClaimOptions.setTime, StreamClaimOptions.setRetry,
        StreamClaimOptions.with_force, StreamClaimOptions.with_justid]
  · intro o s1 s2 h
    cases s1 <;> cases s2 <;>
      simp_all [ReadSetter.fieldIdx, ReadSetter.apply, StreamReadOptions.setBlock,
        StreamReadOptions.setCount, StreamReadOptions.setNoack, StreamReadOptions.setGroup]

/-- Witness for C9: the claim-setter pair (idle 10, force) and the
read-setter pair (noack, group) target different fields and commute on
the default options. -/
theorem builder_order_irrelevant_witness :
    (ClaimSetter.idle 10).fieldIdx ≠ ClaimSetter.force.fieldIdx ∧
      (ClaimSetter.apply (ClaimSetter.apply {} (.idle 10)) .force).to_redis_args =
        (ClaimSetter.apply (ClaimSetter.apply {} .force) (.idle 10)).to_redis_args ∧
      ReadSetter.noack.fieldIdx ≠ (ReadSetter.group ["g"] ["c"]).fieldIdx ∧
      (ReadSetter.apply (ReadSetter.apply {} .noack) (.group ["g"] ["c"])).to_redis_args =
        (ReadSetter.apply (ReadSetter.apply {} (.group ["g"] ["c"])) .noack).to_redis_args :=
  ⟨by decide,
    builder_order_irrelevant.1 {} (.idle 10) .force (by decide),
    by decide,
    builder_order_irrelevant.2 {} .noack (.group ["g"] ["c"]) (by decide)⟩

/-! ## Decoder lemmas and claim theorems -/

/-- Specification-side reading of `StreamId::from_bulk_value` on a
sequence: element 0 (when present) converts to the id, element 1 (when
present) to the field map, missing elements keep the defaults. -/
def streamIdBulkSpec (vs : List Value) : RResult StreamId := do
  let i ←
    match vs.get? 0 with
    | some w => fromValueString w
    | none => pure ""
  let m ←
    match vs.get? 1 with
    | some w => fromValueMap fromValueValue w
    | none => pure ([] : List (String × Value))
  pure { id := i, map := m }

/-- C10.  `StreamId::from_bulk_value` never reports a shape error: every
non-sequence wire value yields the default stream id, and a sequence is
read positionally — element 0 as the id, element 1 as the field map,
missing elements left at their defaults — so an error can only come from
a present element's own field-level conversion. -/
theorem streamId_from_bulk_spec :
    (StreamId.from_bulk_value .Nil = .ok {} ∧
        (∀ i, StreamId.from_bulk_value (.Int i) = .ok {}) ∧
        (∀ s, StreamId.from_bulk_value (.Data s) = .ok {}) ∧
        (∀ s, StreamId.from_bulk_value (.Status s) = .ok {}) ∧
        StreamId.from_bulk_value .Okay = .ok {}) ∧
      ∀ vs, StreamId.from_bulk_value (.Bulk vs) = streamIdBulkSpec vs := by
  refine ⟨⟨rfl, fun i => rfl, fun s => rfl, fun s => rfl, rfl⟩, fun vs => ?_⟩
  match vs with
  | [] => rfl
  | [a] =>
      cases h : fromValueString a <;>
        simp [StreamId.from_bulk_value, streamIdBulkSpec, h, Except.bind]
  | a :: b :: t =>
      cases h1 : fromValueString a <;>
        cases h2 : fromValueMap fromValueValue b <;>
          simp [StreamId.from_bulk_value, streamIdBulkSpec, h1, h2, Except.bind]

/-- C5.  Decoding a `ReadReply` built from single-entry stream mappings
over single-entry (id, field-map) mappings yields one `StreamKey` per
outer mapping in encounter order, entries in encounter order with their
field maps preserved; the decoder is the deserialization followed by the
pure row loop; an empty outer sequence decodes to an empty reply, and the
one-stream/two-entry example decodes exactly as the spec lists it. -/
theorem readReply_decode_spec :
    (∀ rs : List (String × List (String × List (String × Value))),
        processReadRows (rs.map fun p => [(p.1, p.2.map fun q => [q])]) =
          { keys := rs.map fun p =>
              { key := p.1
                ids := p.2.map fun q => { id := q.1, map := q.2 } } }) ∧
      (∀ v, StreamReadReply.from_redis_value v = (readReplyParts v).map processReadRows) ∧
      StreamReadReply.from_redis_value (.Bulk []) = .ok { keys := [] } ∧
      StreamReadReply.from_redis_value
          (.Bulk [.Bulk [.Data "s1", .Bulk [
            .Bulk [.Data "1-0", .Bulk [.Data "a", .Data "1"]],
            .Bulk [.Data "2-0", .Bulk [.Data "b", .Data "2"]]]]]) =
        .ok { keys := [{ key := "s1"
                         ids := [{ id := "1-0", map := [("a", .Data "1")] },
                                 { id := "2-0", map := [("b", .Data "2")] }] }] } := by
  refine ⟨fun rs => ?_, fun v => rfl, rfl, rfl⟩
  simp only [processReadRows]
  congr 1
  induction rs with
  | nil => rfl
  | cons p t ih =>
      simp only [List.map_cons, List.flatMap_cons, ih, List.map_map]
      simp [Function.comp, List.singleton_append]

/-- The consumer built from one well-formed per-consumer row: name from
position 0, pending leniently parsed from position 1 (0 on failure). -/
def consumerOfPair (r : List String) : StreamInfoConsumer :=
  { name := r.headD "", pending := (rustParseUsize (r.getD 1 "")).getD 0 }

theorem parseConsumersLoop_ok : ∀ rows : List (List String),
    (∀ r ∈ rows, 2 ≤ r.length) →
    parseConsumersLoop rows = .ok (rows.map consumerOfPair)
  | [], _ => rfl
  | r :: rest, h => by
      have hr := h r (List.mem_cons_self r rest)
      have ih := parseConsumersLoop_ok rest (fun x hx => h x (List.mem_cons_of_mem r hx))
      match r with
      | [] => simp at hr
      | [a] => simp at hr
      | a :: b :: t =>
          cases hp : rustParseUsize b <;>
            simp [parseConsumersLoop, ih, consumerOfPair, hp]

/-- The pending-detail row built from one nonempty row: the four fields
of `row[0]`. -/
def pendingIdOfRow (row : List (String × String × Nat × Nat)) : StreamPendingId :=
  match row with
  | t :: _ =>
      { id := t.1, consumer := t.2.1
        last_delivered_ms := t.2.2.1, times_delivered := t.2.2.2 }
  | [] => {}

theorem pendingCountLoop_ok : ∀ rows : List (List (String × String × Nat × Nat)),
    (∀ row ∈ rows, row ≠ []) →
    pendingCountLoop rows = .ok (rows.map pendingIdOfRow)
  | [], _ => rfl
  | row :: rest, h => by
      have hr := h row (List.mem_cons_self row rest)
      have ih := pendingCountLoop_ok rest (fun x hx => h x (List.mem_cons_of_mem row hx))
      match row with
      | [] => exact absurd rfl hr
      | t :: rtail => simp [pendingCountLoop, ih, pendingIdOfRow]

/-- C1.  Decoding a pending summary whose deserialized 4-tuple carries
per-consumer pairs: a zero count yields `Empty` regardless of the other
fields (and `count()` of `Empty` is 0); a nonzero count with a missing
start or end id fails with the distinct `IllegalState` domain error; a
nonzero count with both ids yields `Data` carrying count, start id, end
id and the per-consumer list. -/
theorem pendingSummary_decode_spec :
    ∀ (v : Value) (c : Nat) (s e : Option String) (rows : List (List String)),
      readPendingParts v = .ok (c, s, e, rows) →
      (∀ r ∈ rows, r.length = 2) →
      ((c = 0 → StreamPendingReply.from_redis_value v = .ok .Empty ∧
          StreamPendingReply.count .Empty = 0) ∧
        (c ≠ 0 → s = none →
          StreamPendingReply.from_redis_value v =
            .err (.illegalState "IllegalState: Non-zero pending expects start id")) ∧
        (c ≠ 0 → ∀ s0, s = some s0 → e = none →
          StreamPendingReply.from_redis_value v =
            .err (.illegalState "IllegalState: Non-zero pending expects end id")) ∧
        (c ≠ 0 → ∀ s0 e0, s = some s0 → e = some e0 →
          StreamPendingReply.from_redis_value v =
            .ok (.Data { count := c, start_id := s0, end_id := e0,
                         consumers := rows.map consumerOfPair }))) := by
  intro v c s e rows h hrows
  have hloop := parseConsumersLoop_ok rows (fun r hr => by rw [hrows r hr])
  refine ⟨?_, ?_, ?_, ?_⟩
  · intro hc
    exact ⟨by simp [StreamPendingReply.from_redis_value, h, hc], rfl⟩
  · intro hc hs
    subst hs
    simp [StreamPendingReply.from_redis_value, h, hc]
  · intro hc s0 hs he
    subst hs; subst he
    simp [StreamPendingReply.from_redis_value, h, hc]
  · intro hc s0 e0 hs he
    subst hs; subst he
    simp [StreamPendingReply.from_redis_value, h, hc, hloop]

/-- Witness for C1 at the spec's own examples: `(0, nil, nil, [])` is
`Empty` with count 0; `(5, nil, "9-0", [])` fails with the start-id
`IllegalState` error; `(3, "1-0", "3-0", [["c1","2"],["c2","1"]])`
decodes to the populated summary. -/
theorem pendingSummary_decode_spec_witness :
    StreamPendingReply.from_redis_value (.Bulk [.Int 0, .Nil, .Nil, .Bulk []]) =
        .ok .Empty ∧
      StreamPendingReply.count .Empty = 0 ∧
      StreamPendingReply.from_redis_value (.Bulk [.Int 5, .Nil, .Data "9-0", .Bulk []]) =
        .err (.illegalState "IllegalState: Non-zero pending expects start id") ∧
      StreamPendingReply.from_redis_value
          (.Bulk [.Int 3, .Data "1-0", .Data "3-0",
            .Bulk [.Bulk [.Data "c1", .Data "2"], .Bulk [.Data "c2", .Data "1"]]]) =
        .ok (.Data { count := 3, start_id := "1-0", end_id := "3-0",
                     consumers := [{ name := "c1", pending := 2, idle := 0 },
                                   { name := "c2", pending := 1, idle := 0 }] }) :=
  ⟨((pendingSummary_decode_spec (.Bulk [.Int 0, .Nil, .Nil, .Bulk []])
        0 none none [] rfl (by simp)).1 rfl).1,
    ((pendingSummary_decode_spec (.Bulk [.Int 0, .Nil, .Nil, .Bulk []])
        0 none none [] rfl (by simp)).1 rfl).2,
    (pendingSummary_decode_spec (.Bulk [.Int 5, .Nil, .Data "9-0", .Bulk []])
        5 none (some "9-0") [] rfl (by simp)).2.1 (by decide) rfl,
    ((pendingSummary_decode_spec
        (.Bulk [.Int 3, .Data "1-0", .Data "3-0",
          .Bulk [.Bulk [.Data "c1", .Data "2"], .Bulk [.Data "c2", .Data "1"]]])
        3 (some "1-0") (some "3-0") [["c1", "2"], ["c2", "1"]] rfl (by decide)).2.2.2
      (by decide) "1-0" "3-0" rfl rfl).trans (by decide)⟩

/-- C7.  With a nonzero count and both boundary ids present, every
per-consumer pair is decoded by parsing its count text, a non-numeric
count token defaulting the pending count to zero while decoding still
succeeds. -/
theorem pendingSummary_lenient_counts :
    (∀ (v : Value) (c : Nat) (s0 e0 : String) (rows : List (List String)),
        readPendingParts v = .ok (c, some s0, some e0, rows) →
        c ≠ 0 → (∀ r ∈ rows, 2 ≤ r.length) →
        StreamPendingReply.from_redis_value v =
          .ok (.Data { count := c, start_id := s0, end_id := e0,
                       consumers := rows.map consumerOfPair })) ∧
      ∀ name txt, rustParseUsize txt = none →
        consumerOfPair [name, txt] = { name := name, pending := 0, idle := 0 } := by
  constructor
  · intro v c s0 e0 rows h hc hrows
    simp [StreamPendingReply.from_redis_value, h, hc, parseConsumersLoop_ok rows hrows]
  · intro name txt ht
    simp [consumerOfPair, ht]

/-- Witness for C7: the non-numeric count token `"oops"` yields a
consumer with pending 0 and the decode still succeeds. -/
theorem pendingSummary_lenient_counts_witness :
    StreamPendingReply.from_redis_value
        (.Bulk [.Int 2, .Data "1-0", .Data "3-0",
          .Bulk [.Bulk [.Data "c1", .Data "oops"]]]) =
      .ok (.Data { count := 2, start_id := "1-0", end_id := "3-0",
                   consumers := [{ name := "c1", pending := 0, idle := 0 }] }) ∧
      rustParseUsize "oops" = none ∧
      consumerOfPair ["c1", "oops"] = { name := "c1", pending := 0, idle := 0 } :=
  ⟨(pendingSummary_lenient_counts.1
      (.Bulk [.Int 2, .Data "1-0", .Data "3-0", .Bulk [.Bulk [.Data "c1", .Data "oops"]]])
      2 "1-0" "3-0" [["c1", "oops"]] rfl (by decide) (by decide)).trans (by decide),
    by decide,
    pendingSummary_lenient_counts.2 "c1" "oops" (by decide)⟩

/-- Counterexample to C4 as stated: both pending decoders have inputs
accepted by their field-level deserialization on which the code panics
(out-of-bounds indexing) — an empty pending-detail row (`row[0]`) and a
single-element per-consumer row (`consumer[1]`). -/
theorem pendingCount_decode_panics :
    readPendingCountParts (.Bulk [.Bulk []]) = .ok [[]] ∧
      StreamPendingCountReply.from_redis_value (.Bulk [.Bulk []]) = .panic ∧
      readPendingParts (.Bulk [.Int 2, .Data "a", .Data "b", .Bulk [.Bulk [.Data "c1"]]]) =
        .ok (2, some "a", some "b", [["c1"]]) ∧
      StreamPendingReply.from_redis_value
          (.Bulk [.Int 2, .Data "a", .Data "b", .Bulk [.Bulk [.Data "c1"]]]) = .panic :=
  ⟨rfl, rfl, rfl, rfl⟩

/-- C4 (amended).  The pending decoders return a value or an error — no
panic — on every input accepted by field-level deserialization whose
per-consumer rows have at least two elements and whose pending-detail
rows are nonempty; on such inputs no other outcome is possible. -/
theorem pending_decoders_no_panic :
    (∀ (v : Value) (parts : Nat × Option String × Option String × List (List String)),
        readPendingParts v = .ok parts →
        (∀ r ∈ parts.2.2.2, 2 ≤ r.length) →
        StreamPendingReply.from_redis_value v ≠ .panic) ∧
      ∀ (v : Value) (parts : List (List (String × String × Nat × Nat))),
        readPendingCountParts v = .ok parts →
        (∀ row ∈ parts, row ≠ []) →
        StreamPendingCountReply.from_redis_value v ≠ .panic := by
  constructor
  · intro v parts h hrows
    obtain ⟨c, s, e, rows⟩ := parts
    by_cases hc : c = 0
    · simp [StreamPendingReply.from_redis_value, h, hc]
    · cases s with
      | none => simp [StreamPendingReply.from_redis_value, h, hc]
      | some s0 =>
          cases e with
          | none => simp [StreamPendingReply.from_redis_value, h, hc]
          | some e0 =>
              simp [StreamPendingReply.from_redis_value, h, hc,
                parseConsumersLoop_ok rows hrows]
  · intro v parts h hrows
    simp [StreamPendingCountReply.from_redis_value, h, pendingCountLoop_ok parts hrows]

/-- Witness for the amended C4 at well-formed concrete inputs. -/
theorem pending_decoders_no_panic_witness :
    StreamPendingReply.from_redis_value
        (.Bulk [.Int 1, .Data "1-0", .Data "1-0", .Bulk [.Bulk [.Data "c1", .Data "2"]]]) ≠
        .panic ∧
      StreamPendingCountReply.from_redis_value
        (.Bulk [.Bulk [.Bulk [.Data "1-0", .Data "c1", .Int 5, .Int 2]]]) ≠ .panic :=
  ⟨pending_decoders_no_panic.1
      (.Bulk [.Int 1, .Data "1-0", .Data "1-0", .Bulk [.Bulk [.Data "c1", .Data "2"]]])
      (1, some "1-0", some "1-0", [["c1", "2"]]) rfl (by decide),
    pending_decoders_no_panic.2
      (.Bulk [.Bulk [.Bulk [.Data "1-0", .Data "c1", .Int 5, .Int 2]]])
      [[("1-0", "c1", 5, 2)]] rfl (by decide)⟩

/-! ## Optional-key lemmas for the info decoders -/

/-- The known keys of the stream-info decoder. -/
def streamReplyKeys : List String :=
  ["last-generated-id", "radix-tree-nodes", "groups", "length", "first-entry", "last-entry"]

/-- The known keys of the consumer-info decoder. -/
def consumerReplyKeys : List String := ["name", "pending", "idle"]

/-- The known keys of the group-info decoder. -/
def groupReplyKeys : List String := ["name", "pending", "consumers", "last-delivered-id"]

theorem except_bind_ok {α β : Type} {a : RResult α} {f : α → RResult β} {b : β}
    (h : (a >>= f) = .ok b) : ∃ x, a = .ok x ∧ f x = .ok b := by
  cases a with
  | ok x => exact ⟨x, rfl, h⟩
  | error e => simp [Bind.bind, Except.bind] at h

theorem probeKey_none {α β : Type} {m : List (String × Value)} {key : String}
    (conv : Value → RResult α) (upd : β → α → β) (r : β)
    (h : m.lookup key = none) : probeKey m key conv upd r = .ok r := by
  simp [probeKey, h]

theorem probeKey_some {α β : Type} {m : List (String × Value)} {key : String}
    {v : Value} (conv : Value → RResult α) (upd : β → α → β) (r : β)
    (h : m.lookup key = some v) : probeKey m key conv upd r = (conv v).map (upd r) := by
  simp [probeKey, h]

theorem probeKey_preserves {α β : Type} {m : List (String × Value)} {key : String}
    {conv : Value → RResult α} {upd : β → α → β} {r r' : β} (P : β → Prop)
    (h : probeKey m key conv upd r = .ok r')
    (hupd : ∀ b x, P b → P (upd b x)) (hr : P r) : P r' := by
  cases hl : m.lookup key with
  | none =>
      rw [probeKey_none conv upd r hl] at h
      cases h
      exact hr
  | some v =>
      rw [probeKey_some conv upd r hl] at h
      cases hc : conv v with
      | ok x =>
          rw [hc] at h
          simp only [Except.map] at h
          cases h
          exact hupd r x hr
      | error e =>
          rw [hc] at h
          simp [Except.map] at h

/-- C6.  The info decoders treat each known key as optional and ignore
unknown keys: the empty map decodes to the all-defaults reply for each
of the stream, consumer and group decoders; two maps agreeing on the
known keys decode identically (so unknown extra keys never change the
result or raise an error); and a stream-info map without the `groups`
key decodes, when it succeeds, to a reply with `groups = 0`. -/
theorem infoReplies_optional_keys :
    (StreamInfoStreamReply.fromMap [] = .ok {} ∧
        StreamInfoConsumer.fromMap [] = .ok {} ∧
        StreamInfoGroup.fromMap [] = .ok {}) ∧
      (∀ m m' : List (String × Value),
        (∀ k ∈ streamReplyKeys, m.lookup k = m'.lookup k) →
          StreamInfoStreamReply.fromMap m = StreamInfoStreamReply.fromMap m') ∧
      (∀ m m' : List (String × Value),
        (∀ k ∈ consumerReplyKeys, m.lookup k = m'.lookup k) →
          StreamInfoConsumer.fromMap m = StreamInfoConsumer.fromMap m') ∧
      (∀ m m' : List (String × Value),
        (∀ k ∈ groupReplyKeys, m.lookup k = m'.lookup k) →
          StreamInfoGroup.fromMap m = StreamInfoGroup.fromMap m') ∧
      ∀ (m : List (String × Value)) (r : StreamInfoStreamReply),
        m.lookup "groups" = none → StreamInfoStreamReply.fromMap m = .ok r →
          r.groups = 0 := by
  refine ⟨⟨rfl, rfl, rfl⟩, ?_, ?_, ?_, ?_⟩
  · intro m m' h
    have h1 := h "last-generated-id" (by simp [streamReplyKeys])
    have h2 := h "radix-tree-nodes" (by simp [streamReplyKeys])
    have h3 := h "groups" (by simp [streamReplyKeys])
    have h4 := h "length" (by simp [streamReplyKeys])
    have h5 := h "first-entry" (by simp [streamReplyKeys])
    have h6 := h "last-entry" (by simp [streamReplyKeys])
    simp only [StreamInfoStreamReply.fromMap, probeKey, h1, h2, h3, h4, h5, h6]
  · intro m m' h
    have h1 := h "name" (by simp [consumerReplyKeys])
    have h2 := h "pending" (by simp [consumerReplyKeys])
    have h3 := h "idle" (by simp [consumerReplyKeys])
    simp only [StreamInfoConsumer.fromMap, probeKey, h1, h2, h3]
  · intro m m' h
    have h1 := h "name" (by simp [groupReplyKeys])
    have h2 := h "pending" (by simp [groupReplyKeys])
    have h3 := h "consumers" (by simp [groupReplyKeys])
    have h4 := h "last-delivered-id" (by simp [groupReplyKeys])
    simp only [StreamInfoGroup.fromMap, probeKey, h1, h2, h3, h4]
  · intro m r hg hok
    simp only [StreamInfoStreamReply.fromMap] at hok
    obtain ⟨r1, hs1, hok⟩ := except_bind_ok hok
    obtain ⟨r2, hs2, hok⟩ := except_bind_ok hok
    obtain ⟨r3, hs3, hok⟩ := except_bind_ok hok
    obtain ⟨r4, hs4, hok⟩ := except_bind_ok hok
    obtain ⟨r5, hs5, hok⟩ := except_bind_ok hok
    have p1 : r1.groups = 0 :=
      probeKey_preserves (fun b : StreamInfoStreamReply => b.groups = 0) hs1
        (fun b x hb => hb) rfl
    have p2 : r2.groups = 0 :=
      probeKey_preserves (fun b : StreamInfoStreamReply => b.groups = 0) hs2 (fun b x hb => hb) p1
    have p3 : r3.groups = 0 := by
      rw [probeKey_none _ _ _ hg] at hs3
      cases hs3; exact p2
    have p4 : r4.groups = 0 :=
      probeKey_preserves (fun b : StreamInfoStreamReply => b.groups = 0) hs4 (fun b x hb => hb) p3
    have p5 : r5.groups = 0 :=
      probeKey_preserves (fun b : StreamInfoStreamReply => b.groups = 0) hs5 (fun b x hb => hb) p4
    exact probeKey_preserves (fun b : StreamInfoStreamReply => b.groups = 0) hok (fun b x hb => hb) p5

/-- Witness for C6 at concrete maps: a stream-info map holding only
`length` plus an unknown key decodes the same as without the unknown
key, to the reply with `length = 7` and `groups = 0`. -/
theorem infoReplies_optional_keys_witness :
    StreamInfoStreamReply.fromMap [("length", .Int 7)] =
        StreamInfoStreamReply.fromMap [("length", .Int 7), ("bogus-key", .Int 1)] ∧
      StreamInfoStreamReply.fromMap [("length", .Int 7), ("bogus-key", .Int 1)] =
        .ok { length := 7 } ∧
      ({ length := 7 } : StreamInfoStreamReply).groups = 0 :=
  ⟨infoReplies_optional_keys.2.1 [("length", .Int 7)]
      [("length", .Int 7), ("bogus-key", .Int 1)]
      (by
        intro k hk
        simp only [streamReplyKeys, List.mem_cons, List.not_mem_nil, or_false] at hk
        rcases hk with rfl | rfl | rfl | rfl | rfl | rfl <;> rfl),
    rfl,
    infoReplies_optional_keys.2.2.2.2 [("length", .Int 7), ("bogus-key", .Int 1)]
      { length := 7 } rfl rfl⟩

end RedisStreams
